import Mathlib

/-!
Verification of the nile `common.py` module: a shallow embedding of the
value-encoding, command-assembly, network-resolution and output-parsing
logic, with theorems checking the natural-language specification.

Python strings are modelled as Lean `String`/`List Char`, restricted to
the ASCII behaviour of CPython's `int()` / `str.strip()` / `re` on the
inputs this layer actually sees (the spec and the source only ever deal
in ASCII tokens).  Machine side effects (the process environment, the
filesystem, the subprocess) are modelled by explicit state passing.
-/

namespace Nile

/- ### Python string primitives -/

/-- ASCII whitespace as stripped by Python's `int()` / `bytes.strip()`:
space, tab, newline, carriage return, vertical tab, form feed. -/
def isPySpace (c : Char) : Bool :=
  c = ' ' || c = '\t' || c = '\n' || c = '\r' || c = '\x0b' || c = '\x0c'

/-- Strip leading and trailing ASCII whitespace from a character list
(the semantics of Python's `bytes.strip()` / `str.strip()` on ASCII). -/
def pyStripChars (l : List Char) : List Char :=
  ((l.dropWhile isPySpace).reverse.dropWhile isPySpace).reverse

/-- Python `s.strip()` on a Lean string. -/
def pyStrip (s : String) : String :=
  String.mk (pyStripChars s.toList)

/-- Strip only trailing ASCII whitespace (Python `s.rstrip()`).  This
follows the spec's words "strip trailing whitespace" and exists to be
compared with the source's `strip()` behaviour. -/
def pyRStrip (s : String) : String :=
  String.mk ((s.toList.reverse.dropWhile isPySpace).reverse)

/- ### CPython `int(s)` / `int(s, 16)` success predicates -/

/-- After the first digit of a numeric literal: digits, with single
underscores allowed only between two digits (CPython `int()` grammar). -/
def digitTail (isD : Char → Bool) : List Char → Bool
  | [] => true
  | '_' :: c :: cs => isD c && digitTail isD cs
  | '_' :: [] => false
  | c :: cs => isD c && digitTail isD cs

/-- A nonempty run of digits with single internal underscores. -/
def digitRun (isD : Char → Bool) : List Char → Bool
  | [] => false
  | c :: cs => isD c && digitTail isD cs

/-- Drop one optional leading sign, as `int()` accepts. -/
def dropSign : List Char → List Char
  | '+' :: cs => cs
  | '-' :: cs => cs
  | cs => cs

/-- Decimal digit test (ASCII). -/
def isDec (c : Char) : Bool := c.isDigit

/-- Hex digit test, both cases, as `int(s, 16)` accepts. -/
def isHexAny (c : Char) : Bool :=
  c.isDigit || ('a' ≤ c && c ≤ 'f') || ('A' ≤ c && c ≤ 'F')

/-- Lowercase hex digit test: the character class `[\da-f]` of the
source's regular expression (ASCII reading of `\d`). -/
def isHexLower (c : Char) : Bool :=
  c.isDigit || ('a' ≤ c && c ≤ 'f')

/-- Drop one optional single underscore (allowed right after a `0x`
base tag in CPython's `int(s, 16)`). -/
def dropOneUnderscore : List Char → List Char
  | '_' :: cs => cs
  | cs => cs

/-- Drop an optional `0x` / `0X` base tag, together with the single
underscore CPython permits right after it. -/
def dropHexTag : List Char → List Char
  | '0' :: 'x' :: cs => dropOneUnderscore cs
  | '0' :: 'X' :: cs => dropOneUnderscore cs
  | cs => cs

/-- Success of CPython `int(param)` (base 10) on an ASCII string:
optional surrounding whitespace, optional sign, then a nonempty digit
run with single internal underscores. -/
def pyIsInt10 (s : String) : Bool :=
  digitRun isDec (dropSign (pyStripChars s.toList))

/-- Success of CPython `int(param, 16)` on an ASCII string: optional
surrounding whitespace, optional sign, optional `0x`/`0X` tag (with an
optional single underscore after it), then a nonempty hex-digit run. -/
def pyIsInt16 (s : String) : Bool :=
  digitRun isHexAny (dropHexTag (dropSign (pyStripChars s.toList)))

/-- Python `s.startswith(pre)`, structurally on the character lists. -/
def pyStartsWith (s pre : String) : Bool :=
  pre.toList.isPrefixOf s.toList

/- ### Value Encoder: classification (`is_string`) -/

/-- `is_string` from `common.py`: a param is a string if it is neither
an int (`int(param)` succeeds) nor hex (`param.startswith("0x")` and
`int(param, 16)` succeeds). -/
def is_string (param : String) : Bool :=
  let is_int := pyIsInt10 param
  let is_hex := pyStartsWith param "0x" && pyIsInt16 param
  !is_int && !is_hex

/-- `is_alias` from `common.py`: identical to `is_string`. -/
def is_alias (param : String) : Bool := is_string param

/-- The logical parameter kinds of the spec's data model. -/
inductive ParamKind where
  | integer
  | hexAddress
  | shortString
deriving DecidableEq

/-- Following the spec's words (section 4.1): Integer if it parses as a
base-10 integer; else HexAddress if it starts with `0x` and parses as
base-16; else ShortString.  This is the spec-side fallthrough policy, to
be compared against the source's `is_string`. -/
def classify (s : String) : ParamKind :=
  if pyIsInt10 s then ParamKind.integer
  else if pyStartsWith s "0x" && pyIsInt16 s then ParamKind.hexAddress
  else ParamKind.shortString

/- ### Felt encoding and stringification -/

/-- UTF-8 encoding of a single character, as a list of byte values. -/
def utf8Bytes (c : Char) : List Nat :=
  let n := c.toNat
  if n < 0x80 then [n]
  else if n < 0x800 then
    [0xC0 ||| (n >>> 6), 0x80 ||| (n &&& 0x3F)]
  else if n < 0x10000 then
    [0xE0 ||| (n >>> 12), 0x80 ||| ((n >>> 6) &&& 0x3F), 0x80 ||| (n &&& 0x3F)]
  else
    [0xF0 ||| (n >>> 18), 0x80 ||| ((n >>> 12) &&& 0x3F),
     0x80 ||| ((n >>> 6) &&& 0x3F), 0x80 ||| (n &&& 0x3F)]

/-- Modelled from the spec: `str_to_felt` lives in `nile.utils`, which is
not under src/; the spec (section 4.1 and glossary) describes it as
packing the string's bytes into a single integer per a fixed big-endian
byte-to-integer packing scheme. -/
def str_to_felt (s : String) : Nat :=
  ((s.toList.map utf8Bytes).flatten).foldl (fun acc b => 256 * acc + b) 0

/-- A Python value as passed to `stringify` / `prepare_params`: a scalar
(int or str) or a (possibly nested) list; tuples behave exactly like
lists in the source, so both are `list`. -/
inductive PyVal where
  | int (n : Int)
  | str (s : String)
  | list (xs : List PyVal)

/-- The return shape of `stringify`: a Python string, or a (possibly
nested) Python list of such results. -/
inductive StrTree where
  | leaf (s : String)
  | node (ts : List StrTree)

/-- The scalar branch of `stringify` on a Python string: felt-encode a
short string when `process_short_strings` is set, otherwise `str(x)`
(the identity on a string). -/
def encodeStrScalar (s : String) (process_short_strings : Bool) : String :=
  if process_short_strings && is_string s then toString (str_to_felt s) else s

/-- The scalar branch of `stringify` on any scalar `PyVal` (Python
`is_string` is false on every int, since `int(x)` succeeds, so ints are
rendered with `str`; the `list` case is never a scalar and is given a
dummy value). -/
def encodeScalar (x : PyVal) (process_short_strings : Bool) : String :=
  match x with
  | .int n => toString n
  | .str s => encodeStrScalar s process_short_strings
  | .list _ => ""

mutual

/-- `stringify` from `common.py`: recursively convert list or tuple
elements; a scalar becomes its encoded string. -/
def stringify (x : PyVal) (process_short_strings : Bool) : StrTree :=
  match x with
  | .list xs => .node (stringifyList xs process_short_strings)
  | .int n => .leaf (toString n)
  | .str s => .leaf (encodeStrScalar s process_short_strings)

/-- The list comprehension `[stringify(y, process_short_strings) for y in x]`. -/
def stringifyList (xs : List PyVal) (process_short_strings : Bool) : List StrTree :=
  match xs with
  | [] => []
  | y :: ys => stringify y process_short_strings :: stringifyList ys process_short_strings

end

/-- `prepare_params` from `common.py`: `None` is replaced by the empty
list, then `stringify(params, True)`. -/
def prepare_params (params : Option PyVal) : StrTree :=
  stringify (match params with | none => .list [] | some p => p) true

/- ### Output Parser: the regular expression `0x[\da-f]{1,64}` -/

/-- One fuel-indexed step of `re.findall("0x[\da-f]{1,64}", s)`: scan
left to right; at a `0x` followed by at least one lowercase hex digit,
greedily consume up to 64 hex digits and continue after the match; at
any other position advance one character.  Each scan step consumes at
least one character and one unit of fuel, so fuel equal to the input
length never runs out. -/
def findallAux : Nat → List Char → List (List Char)
  | 0, _ => []
  | _ + 1, [] => []
  | fuel + 1, '0' :: 'x' :: cs =>
    let run := (cs.takeWhile isHexLower).take 64
    if run.isEmpty then findallAux fuel ('x' :: cs)
    else ('0' :: 'x' :: run) :: findallAux fuel (cs.drop run.length)
  | fuel + 1, _ :: cs => findallAux fuel cs

/-- `re.findall("0x[\da-f]{1,64}", s)`: all non-overlapping matches in
order of appearance. -/
def findall (l : List Char) : List (List Char) :=
  findallAux l.length l

/-- Numeric value of one hex digit (lowercase or uppercase). -/
def hexDigitVal (c : Char) : Nat :=
  if c.isDigit then c.toNat - '0'.toNat
  else if 'a' ≤ c && c ≤ 'f' then c.toNat - 'a'.toNat + 10
  else c.toNat - 'A'.toNat + 10

/-- Value of a hex-digit run. -/
def hexVal (cs : List Char) : Nat :=
  cs.foldl (fun acc c => 16 * acc + hexDigitVal c) 0

/-- CPython `int(tok, 16)` on a `0x`-prefixed match of the regular
expression: the base tag is dropped and the digits are read in base 16. -/
def pyIntHexTok (m : List Char) : Nat :=
  hexVal (dropHexTag m)

/-- Modelled from the spec: `normalize_number` lives in `nile.utils`,
which is not under src/; the spec (data model, ParsedReceipt) describes
it as normalizing a `0x`-prefixed hex capture to a canonical
integer-backed numeric representation, i.e. its base-16 value. -/
def normalize_number (m : List Char) : Nat :=
  pyIntHexTok m

/-- `parse_information` from `common.py`: the tuple unpacking
`address, tx_hash = re.findall(...)` raises (malformed output) unless
there are exactly two matches; on exactly two, each is normalized. -/
def parse_information (x : String) : Option (Nat × Nat) :=
  match findall x.toList with
  | [address, tx_hash] => some (normalize_number address, normalize_number tx_hash)
  | _ => none

/-- `get_addresses_from_string` from `common.py`: the set of
`int(address, 16)` over every regex match in the string. -/
def get_addresses_from_string (string : String) : Finset Nat :=
  ((findall string.toList).map pyIntHexTok).toFinset

/- ### Network Resolver -/

/-- Python `dict.get`: `none` when the key is absent. -/
def dictGet : List (String × String) → String → Option String
  | [], _ => none
  | (k, v) :: rest, key => if k = key then some v else dictGet rest key

/-- Python string interpolation of a `dict.get` result: `None` renders
as the text `"None"`. -/
def pyShowOpt : Option String → String
  | none => "None"
  | some s => s

/-- Set (or add) one variable in an environment modelled as an
association list over all of `os.environ`. -/
def envSet (env : List (String × String)) (k v : String) : List (String × String) :=
  if env.any (fun kv => kv.1 = k) then
    env.map (fun kv => if kv.1 = k then (k, v) else kv)
  else env ++ [(k, v)]

/-- `get_network_parameter_or_set_env` from `common.py`, with the
process environment passed explicitly: `mainnet` and `goerli` set
`STARKNET_NETWORK` and return no extra parameters; any other name
yields gateway and feeder-gateway arguments built from
`GATEWAYS.get(network)`. -/
def get_network_parameter_or_set_env (gateways : List (String × String))
    (network : String) (env : List (String × String)) :
    List String × List (String × String) :=
  if network = "mainnet" then
    ([], envSet env "STARKNET_NETWORK" "alpha-mainnet")
  else if network = "goerli" then
    ([], envSet env "STARKNET_NETWORK" "alpha-goerli")
  else
    (["--gateway_url=" ++ pyShowOpt (dictGet gateways network),
      "--feeder_gateway_url=" ++ pyShowOpt (dictGet gateways network)], env)

/- ### Command Builder and Invoker (`run_command`) -/

def CONTRACTS_DIRECTORY : String := "contracts"

def BUILD_DIRECTORY : String := "artifacts"

def ABIS_DIRECTORY : String := BUILD_DIRECTORY ++ "/abis"

/-- The keyword parameters of `run_command` (defaults are `None`). -/
structure RunInputs where
  operation : String
  network : String
  contract_name : Option String
  arguments : Option (List String)
  inputs : Option (List PyVal)
  signature : Option (List PyVal)
  max_fee : Option String
  query_flag : Option String
  overriding_path : Option (String × String)
  mainnet_token : Option String

/-- The command-assembly phase of `run_command` from `common.py`,
token by token in source order, with the process environment passed
explicitly (the network resolution may set `STARKNET_NETWORK`).  Tokens
are `StrTree`s because `command.extend(prepare_params(inputs))` appends
whatever the stringified elements are, nested lists included. -/
def run_command_build (a : RunInputs) (gateways : List (String × String))
    (env : List (String × String)) :
    List StrTree × List (String × String) :=
  let command : List StrTree := [.leaf "starknet", .leaf a.operation]
  let command := match a.contract_name with
    | none => command
    | some name =>
      let base_path := match a.overriding_path with
        | some p => p
        | none => (BUILD_DIRECTORY, ABIS_DIRECTORY)
      command ++ [.leaf "--contract", .leaf (base_path.1 ++ "/" ++ name ++ ".json")]
  let command := match a.inputs with
    | none => command
    | some xs => command ++ [.leaf "--inputs"] ++ stringifyList xs true
  let command := match a.signature with
    | none => command
    | some xs => command ++ [.leaf "--signature"] ++ stringifyList xs true
  let command := match a.max_fee with
    | none => command
    | some fee => command ++ [.leaf "--max_fee", .leaf fee]
  let command := match a.mainnet_token with
    | none => command
    | some tok => command ++ [.leaf "--token", .leaf tok]
  let command := match a.query_flag with
    | none => command
    | some q => command ++ [.leaf ("--" ++ q)]
  let command := match a.arguments with
    | none => command
    | some args => command ++ args.map .leaf
  let pair := get_network_parameter_or_set_env gateways a.network env
  let command := command ++ pair.1.map .leaf
  let command := command ++ [.leaf "--no_wallet"]
  (command, pair.2)

/-- The observable outcome of the subprocess run, supplied as input to
the invocation phase: exit status and the two captured streams. -/
structure ProcResult where
  exitCode : Int
  stdout : String
  stderr : String

/-- The invocation phase of `run_command` from `common.py`: on exit
code zero, `check_output(command).strip().decode("utf-8")`; on any
non-zero exit, `CalledProcessError` is caught, a hint may be logged
(a side effect invisible in the return value), and `""` is returned. -/
def run_command_invoke (r : ProcResult) : String :=
  if r.exitCode = 0 then pyStrip r.stdout else ""

/-- The two diagnostic substrings `run_command` recognizes in stderr;
matching only changes what is logged, never the returned value. -/
def knownDiagnostics : List String :=
  ["max_fee must be bigger than 0",
   "transactions should go through the __execute__ entrypoint."]

/- ### NetworkConfig bootstrap (`get_gateways`) -/

def NODE_FILENAME : String := "node.json"

/-- The filesystem as seen by `get_gateways`: the contents of
`node.json` decoded as a JSON string-to-string object, or `none` when
the file is absent (`open` raises `FileNotFoundError`). -/
structure NodeFS where
  nodeFile : Option (List (String × String))

/-- The three default network entries written on bootstrap. -/
def defaultNetworks : List (String × String) :=
  [("localhost", "http://127.0.0.1:5050/"),
   ("goerli2", "https://alpha4-2.starknet.io"),
   ("integration", "https://external.integration.starknet.io")]

/-- `get_gateways` from `common.py`: read and return the persisted
mapping; on `FileNotFoundError`, write the three defaults to the file
and return them. -/
def get_gateways (fs : NodeFS) : List (String × String) × NodeFS :=
  match fs.nodeFile with
  | some gateway => (gateway, fs)
  | none => (defaultNetworks, ⟨some defaultNetworks⟩)

/- ### Observations on stringify results -/

/-- Is this result a plain Python string (not a list)? -/
def isLeaf : StrTree → Bool
  | .leaf _ => true
  | .node _ => false

/-- Following the claim's words: a `stringify` result is a flat ordered
sequence of string tokens when it is a list all of whose elements are
plain strings (suitable for direct inclusion in the command list). -/
def isFlatTokenList : StrTree → Bool
  | .leaf _ => false
  | .node ts => ts.all isLeaf

/-- Is this value a scalar (not a list/tuple)? -/
def isScalar : PyVal → Bool
  | .list _ => false
  | .int _ => true
  | .str _ => true

mutual

/-- The string leaves of a `stringify` result, in order of appearance. -/
def leavesOf : StrTree → List String
  | .leaf s => [s]
  | .node ts => leavesList ts

/-- The string leaves of a list of results, in order. -/
def leavesList : List StrTree → List String
  | [] => []
  | t :: ts => leavesOf t ++ leavesList ts

end

mutual

/-- The scalar values of a nested value, in order of appearance. -/
def scalarsOf : PyVal → List PyVal
  | .int n => [.int n]
  | .str s => [.str s]
  | .list xs => scalarsList xs

/-- The scalar values of a list of values, in order. -/
def scalarsList : List PyVal → List PyVal
  | [] => []
  | x :: xs => scalarsOf x ++ scalarsList xs

end

/- ### Helper lemmas -/

/-- Every match produced by the scanner has the shape of the regular
expression `0x[\da-f]{1,64}`: a `0x` tag followed by one to sixty-four
lowercase hex digits. -/
theorem findallAux_shape (fuel : Nat) (l : List Char) :
    ∀ m ∈ findallAux fuel l,
    ∃ ds, m = '0' :: 'x' :: ds ∧ ds ≠ [] ∧ ds.length ≤ 64 ∧ ∀ c ∈ ds, isHexLower c = true := by
  induction fuel, l using findallAux.induct with
  | case1 l => simp [findallAux]
  | case2 fuel => simp [findallAux]
  | case3 fuel cs run hrun ih =>
    intro m h
    rw [findallAux.eq_3, if_pos hrun] at h
    exact ih m h
  | case4 fuel cs run hrun ih =>
    intro m h
    rw [findallAux.eq_3, if_neg hrun] at h
    rcases List.mem_cons.mp h with hm | hm
    · refine ⟨List.take 64 (List.takeWhile isHexLower cs), hm, ?_, ?_, ?_⟩
      · intro hnil
        refine hrun ?_
        show (List.take 64 (List.takeWhile isHexLower cs)).isEmpty = true
        rw [hnil]
        rfl
      · rw [List.length_take]
        exact min_le_left _ _
      · intro c hc
        exact List.mem_takeWhile_imp (List.mem_of_mem_take hc)
    · exact ih m hm
  | case5 fuel c cs h1 ih =>
    intro m h
    rw [findallAux.eq_4 fuel c cs h1] at h
    exact ih m h

/-- C1: for every input text, `parse_information` returns the pair of
normalized hex tokens (each matching `0x` followed by 1-64 lowercase
hex digits, taken in order of appearance) exactly when the text
contains exactly two such matches, and fails (malformed output) when
the number of matches is not two. -/
theorem parse_information_spec (x : String) :
    (∀ a t, findall x.toList = [a, t] →
      parse_information x = some (normalize_number a, normalize_number t)) ∧
    ((findall x.toList).length ≠ 2 → parse_information x = none) ∧
    (∀ m ∈ findall x.toList, ∃ ds, m = '0' :: 'x' :: ds ∧ ds ≠ [] ∧
      ds.length ≤ 64 ∧ ∀ c ∈ ds, isHexLower c = true) := by
  refine ⟨?_, ?_, fun m hm => findallAux_shape _ _ m hm⟩
  · intro a t h
    unfold parse_information
    rw [h]
  · intro h
    unfold parse_information
    split
    · rename_i address tx_hash heq
      exact absurd (by rw [heq]; rfl) h
    · rfl

/-- C1 witness: a two-token text parses to the two normalized values; a
one-token text fails. -/
theorem parse_information_spec_witness :
    parse_information "a 0x1a2b b 0x3c4d" = some (6699, 15437) ∧
    parse_information "only one 0xabc" = none := by
  refine ⟨?_, (parse_information_spec "only one 0xabc").2.1 (by decide)⟩
  exact ((parse_information_spec "a 0x1a2b b 0x3c4d").1
    ['0', 'x', '1', 'a', '2', 'b'] ['0', 'x', '3', 'c', '4', 'd'] (by decide)).trans (by decide)

/-- C2: the source's `is_string` agrees with the spec's fallthrough
classification policy: Integer (base-10 parse succeeds) and HexAddress
(starts with 0x and base-16 parse succeeds) are not strings, everything
else is a ShortString, and no value with a successful numeric parse is
ever classified ShortString. -/
theorem is_string_classification (s : String) :
    (classify s = ParamKind.integer → is_string s = false) ∧
    (classify s = ParamKind.hexAddress → is_string s = false) ∧
    (classify s = ParamKind.shortString ↔ is_string s = true) ∧
    ((pyIsInt10 s || (pyStartsWith s "0x" && pyIsInt16 s)) = true → is_string s = false) := by
  cases h1 : pyIsInt10 s <;> cases h2 : pyStartsWith s "0x" && pyIsInt16 s <;>
    simp [classify, is_string, h1, h2]

/-- C2 witness: a decimal string and a hex string are not ShortString. -/
theorem is_string_classification_witness :
    is_string "123" = false ∧ is_string "0x1f" = false :=
  ⟨(is_string_classification "123").1 (by decide),
   (is_string_classification "0x1f").2.1 (by decide)⟩

/-- Any `PyVal` has positive size. -/
theorem pyVal_sizeOf_pos (v : PyVal) : 0 < sizeOf v := by
  cases v <;> simp

/-- Any list of `PyVal`s has positive size. -/
theorem pyValList_sizeOf_pos (xs : List PyVal) : 0 < sizeOf xs := by
  cases xs <;> simp

/-- Size-bounded simultaneous induction: the leaves of a `stringify`
result are exactly the encodings of the scalars of the input, in
order. -/
theorem leaves_stringify_aux (n : Nat) (p : Bool) :
    (∀ v : PyVal, sizeOf v ≤ n →
      leavesOf (stringify v p) = (scalarsOf v).map (fun x => encodeScalar x p)) ∧
    (∀ xs : List PyVal, sizeOf xs ≤ n →
      leavesList (stringifyList xs p) = (scalarsList xs).map (fun x => encodeScalar x p)) := by
  induction n with
  | zero =>
    constructor
    · intro v hv
      have := pyVal_sizeOf_pos v
      omega
    · intro xs hxs
      have := pyValList_sizeOf_pos xs
      omega
  | succ n ih =>
    constructor
    · intro v hv
      match v with
      | .int k => simp [stringify, leavesOf, scalarsOf, encodeScalar]
      | .str s => simp [stringify, leavesOf, scalarsOf, encodeScalar]
      | .list xs =>
        have hxs : sizeOf xs ≤ n := by
          have := pyValList_sizeOf_pos xs
          simp at hv
          omega
        simp only [stringify, leavesOf, scalarsOf]
        exact ih.2 xs hxs
    · intro xs hxs
      match xs with
      | [] => simp [stringifyList, leavesList, scalarsList]
      | x :: ys =>
        have hx : sizeOf x ≤ n := by
          have := pyValList_sizeOf_pos ys
          simp at hxs
          omega
        have hy : sizeOf ys ≤ n := by
          have := pyVal_sizeOf_pos x
          simp at hxs
          omega
        simp only [stringifyList, leavesList, scalarsList, List.map_append]
        rw [ih.1 x hx, ih.2 ys hy]

/-- On a list of scalars, `stringify` maps each element to the leaf of
its encoding. -/
theorem stringifyList_scalars (xs : List PyVal) (p : Bool)
    (h : ∀ x ∈ xs, isScalar x = true) :
    stringifyList xs p = (xs.map (fun x => encodeScalar x p)).map StrTree.leaf := by
  induction xs with
  | nil => simp [stringifyList]
  | cons x ys ih =>
    have hx : stringify x p = .leaf (encodeScalar x p) := by
      have := h x (by simp)
      match x with
      | .int k => simp [stringify, encodeScalar]
      | .str s => simp [stringify, encodeScalar]
      | .list zs => simp [isScalar] at this
    rw [stringifyList, hx, ih (fun y hy => h y (by simp [hy]))]
    simp

/-- C3 counterexample: on the nested input `[[1, 2], 3]` the source's
`stringify` returns the nested list `[["1", "2"], "3"]`, which is not a
flat ordered sequence of string tokens. -/
theorem stringify_not_flattened :
    stringify (.list [.list [.int 1, .int 2], .int 3]) true
      = .node [.node [.leaf "1", .leaf "2"], .leaf "3"] ∧
    isFlatTokenList (stringify (.list [.list [.int 1, .int 2], .int 3]) true) = false := by
  have h : stringify (.list [.list [.int 1, .int 2], .int 3]) true
      = .node [.node [.leaf "1", .leaf "2"], .leaf "3"] := by
    simp [stringify, stringifyList]
    constructor <;> decide
  exact ⟨h, by rw [h]; rfl⟩

/-- C3 (amended): `stringify` recurses element-wise but preserves the
input's nesting structure rather than flattening it; the string leaves
of the result, in order, are exactly the encoded scalars of the input,
in order, and on a flat sequence of scalars `prepare_params` yields a
flat ordered sequence of encoded string tokens. -/
theorem stringify_flatten_amended (v : PyVal) (p : Bool) :
    leavesOf (stringify v p) = (scalarsOf v).map (fun x => encodeScalar x p) ∧
    (∀ xs : List PyVal, (∀ x ∈ xs, isScalar x = true) →
      prepare_params (some (.list xs))
        = .node ((xs.map (fun x => encodeScalar x true)).map StrTree.leaf)) := by
  constructor
  · exact (leaves_stringify_aux (sizeOf v) p).1 v le_rfl
  · intro xs h
    rw [prepare_params, stringify, stringifyList_scalars xs true h]

/-- C3 witness: on the flat scalar input `[5, "abc"]`, `prepare_params`
produces the flat token list `["5", "6382179"]`. -/
theorem stringify_flatten_amended_witness :
    prepare_params (some (.list [.int 5, .str "abc"]))
      = .node [.leaf "5", .leaf "6382179"] := by
  have h := (stringify_flatten_amended (.list [.int 5, .str "abc"]) true).2
    [.int 5, .str "abc"] (by intro x hx; fin_cases hx <;> rfl)
  rw [h]
  have h5 : encodeScalar (.int 5) true = "5" := by decide
  have habc : encodeScalar (.str "abc") true = "6382179" := by decide
  simp [h5, habc]

/-- C4: the command is assembled deterministically, each optional
component appended only when present, in exactly the source's order:
tool binary and operation, contract path (first element of the
overriding path pair when supplied, else the build-artifacts
directory, then `/{contract_name}.json`), encoded inputs, encoded
signature, max fee, mainnet token, query flag, extra positional
arguments, network parameters, trailing `--no_wallet`; identical
inputs give identical command lists. -/
theorem run_command_build_spec (a : RunInputs) (gw env : List (String × String)) :
    (run_command_build a gw env).1 =
      [.leaf "starknet", .leaf a.operation]
      ++ (match a.contract_name with
          | none => []
          | some name =>
            [StrTree.leaf "--contract",
             .leaf ((match a.overriding_path with
                     | some p => p.1
                     | none => BUILD_DIRECTORY) ++ "/" ++ name ++ ".json")])
      ++ (match a.inputs with
          | none => []
          | some xs => StrTree.leaf "--inputs" :: stringifyList xs true)
      ++ (match a.signature with
          | none => []
          | some xs => StrTree.leaf "--signature" :: stringifyList xs true)
      ++ (match a.max_fee with
          | none => []
          | some fee => [StrTree.leaf "--max_fee", .leaf fee])
      ++ (match a.mainnet_token with
          | none => []
          | some tok => [StrTree.leaf "--token", .leaf tok])
      ++ (match a.query_flag with
          | none => []
          | some q => [StrTree.leaf ("--" ++ q)])
      ++ (match a.arguments with
          | none => []
          | some args => args.map StrTree.leaf)
      ++ ((get_network_parameter_or_set_env gw a.network env).1.map StrTree.leaf)
      ++ [.leaf "--no_wallet"] ∧
    (∀ b : RunInputs, a = b →
      run_command_build a gw env = run_command_build b gw env) := by
  constructor
  · rcases a with ⟨op, net, cn, args, inp, sig, fee, q, ov, tok⟩
    cases cn <;> cases args <;> cases inp <;> cases sig <;> cases fee <;>
      cases q <;> cases ov <;> cases tok <;>
      simp [run_command_build]
  · rintro b rfl
    rfl

/-- C4 witness: applying determinism at one concrete input. -/
theorem run_command_build_spec_witness :
    run_command_build
      ⟨"deploy", "localhost", some "token_contract", none, some [.int 5],
       none, some "10", none, none, none⟩ defaultNetworks []
    = run_command_build
      ⟨"deploy", "localhost", some "token_contract", none, some [.int 5],
       none, some "10", none, none, none⟩ defaultNetworks [] :=
  (run_command_build_spec
    ⟨"deploy", "localhost", some "token_contract", none, some [.int 5],
     none, some "10", none, none, none⟩ defaultNetworks []).2 _ rfl

/-- C5 counterexample: on exit code zero with stdout `" ok"` the source
returns `"ok"` — `bytes.strip()` removes leading whitespace as well —
which differs from only stripping trailing whitespace. -/
theorem run_command_invoke_counterexample :
    run_command_invoke ⟨0, " ok", ""⟩ = "ok" ∧
    pyRStrip " ok" = " ok" ∧
    run_command_invoke ⟨0, " ok", ""⟩ ≠ pyRStrip " ok" := by
  refine ⟨by decide, by decide, by decide⟩

/-- C5 (amended): on exit code zero the invoker returns the captured
standard output with BOTH leading and trailing whitespace stripped; on
every non-zero exit (whatever stderr holds) it returns the empty
string, so failure causes are indistinguishable from the value. -/
theorem run_command_invoke_spec (r : ProcResult) :
    (r.exitCode = 0 → run_command_invoke r = pyStrip r.stdout) ∧
    (r.exitCode ≠ 0 → run_command_invoke r = "") := by
  constructor <;> intro h <;> simp [run_command_invoke, h]

/-- C5 witness: a success run returns the stripped stdout; a failing
run with a recognized diagnostic still returns the empty string. -/
theorem run_command_invoke_spec_witness :
    run_command_invoke ⟨0, "out \n", "x"⟩ = pyStrip "out \n" ∧
    run_command_invoke ⟨1, "out", "max_fee must be bigger than 0"⟩ = "" :=
  ⟨(run_command_invoke_spec ⟨0, "out \n", "x"⟩).1 rfl,
   (run_command_invoke_spec ⟨1, "out", "max_fee must be bigger than 0"⟩).2 (by decide)⟩

/-- C6: network resolution sets `STARKNET_NETWORK` to the fixed
alpha-mainnet / alpha-goerli identifier and returns no arguments for
the two reserved names; any other configured name yields two arguments
carrying the same URL for gateway and feeder gateway; an unconfigured
name yields two arguments carrying the rendering of `None`. -/
theorem get_network_parameter_spec (gw env : List (String × String))
    (network url : String) :
    (get_network_parameter_or_set_env gw "mainnet" env
      = ([], envSet env "STARKNET_NETWORK" "alpha-mainnet")) ∧
    (get_network_parameter_or_set_env gw "goerli" env
      = ([], envSet env "STARKNET_NETWORK" "alpha-goerli")) ∧
    (network ≠ "mainnet" → network ≠ "goerli" → dictGet gw network = some url →
      (get_network_parameter_or_set_env gw network env).1
        = ["--gateway_url=" ++ url, "--feeder_gateway_url=" ++ url]) ∧
    (network ≠ "mainnet" → network ≠ "goerli" → dictGet gw network = none →
      (get_network_parameter_or_set_env gw network env).1
        = ["--gateway_url=None", "--feeder_gateway_url=None"]) := by
  refine ⟨by simp [get_network_parameter_or_set_env],
          by simp +decide [get_network_parameter_or_set_env], ?_, ?_⟩ <;>
  · intro h1 h2 h3
    simp [get_network_parameter_or_set_env, h1, h2, h3, pyShowOpt]

/-- C6 witness: a configured custom name yields the same URL twice; an
unconfigured name yields None-valued endpoints. -/
theorem get_network_parameter_spec_witness :
    (get_network_parameter_or_set_env defaultNetworks "localhost" []).1
      = ["--gateway_url=http://127.0.0.1:5050/",
         "--feeder_gateway_url=http://127.0.0.1:5050/"] ∧
    (get_network_parameter_or_set_env defaultNetworks "nope" []).1
      = ["--gateway_url=None", "--feeder_gateway_url=None"] :=
  ⟨(get_network_parameter_spec defaultNetworks [] "localhost"
      "http://127.0.0.1:5050/").2.2.1 (by decide) (by decide) (by decide),
   (get_network_parameter_spec defaultNetworks [] "nope" "").2.2.2
      (by decide) (by decide) (by decide)⟩

/-- C7: when the configuration file is absent, `get_gateways` writes a
file holding exactly the three default entries (a local endpoint and
two named remote endpoints) and returns that same three-entry mapping;
the missing file is never surfaced as an error. -/
theorem get_gateways_bootstrap :
    get_gateways ⟨none⟩ = (defaultNetworks, ⟨some defaultNetworks⟩) ∧
    defaultNetworks =
      [("localhost", "http://127.0.0.1:5050/"),
       ("goerli2", "https://alpha4-2.starknet.io"),
       ("integration", "https://external.integration.starknet.io")] ∧
    defaultNetworks.length = 3 :=
  ⟨rfl, rfl, rfl⟩

/-- C8: on a string classified Integer or HexAddress (`is_string`
false), `encode` with short-string processing enabled is the identity,
so encoding twice equals encoding once, and the felt encoding is never
applied to such values. -/
theorem encode_idempotent (s : String) (h : is_string s = false) :
    stringify (.str s) true = .leaf s ∧
    encodeStrScalar s true = s ∧
    encodeStrScalar (encodeStrScalar s true) true = encodeStrScalar s true := by
  have he : encodeStrScalar s true = s := by simp [encodeStrScalar, h]
  refine ⟨?_, he, by rw [he]; exact he⟩
  rw [stringify, he]

/-- C8 witness: the hex token `0x1f` and the integer token `123` pass
through `encode` unchanged. -/
theorem encode_idempotent_witness :
    stringify (.str "0x1f") true = .leaf "0x1f" ∧
    encodeStrScalar "123" true = "123" :=
  ⟨(encode_idempotent "0x1f" (by decide)).1,
   (encode_idempotent "123" (by decide)).2.1⟩

/-- C9: `prepare_params` on an absent input returns the empty list, and
`get_addresses_from_string` returns exactly the set of base-16 values
of the regex matches `0x[\da-f]{1,64}` of the text, duplicates
collapsed; on `"foo 0x1 bar 0x1 0x2"` it is `{1, 2}`. -/
theorem prepare_params_none_addresses (s : String) :
    prepare_params none = .node [] ∧
    (∀ n : Nat, n ∈ get_addresses_from_string s ↔
      ∃ m ∈ findall s.toList, pyIntHexTok m = n) ∧
    get_addresses_from_string "foo 0x1 bar 0x1 0x2" = {1, 2} := by
  refine ⟨?_, ?_, by decide⟩
  · rw [prepare_params, stringify, stringifyList]
  · intro n
    simp [get_addresses_from_string]

/-- C10: network resolution leaves the process environment unchanged
for every network name other than the two reserved ones, and for the
two reserved names the returned argument list is exactly empty. -/
theorem get_network_parameter_frame (gw env : List (String × String))
    (network : String) (h1 : network ≠ "mainnet") (h2 : network ≠ "goerli") :
    (get_network_parameter_or_set_env gw network env).2 = env ∧
    (get_network_parameter_or_set_env gw "mainnet" env).1 = [] ∧
    (get_network_parameter_or_set_env gw "goerli" env).1 = [] := by
  refine ⟨?_, by simp [get_network_parameter_or_set_env],
          by simp +decide [get_network_parameter_or_set_env]⟩
  simp [get_network_parameter_or_set_env, h1, h2]

/-- C10 witness: resolving a custom network name leaves a sample
environment untouched. -/
theorem get_network_parameter_frame_witness :
    (get_network_parameter_or_set_env defaultNetworks "localhost"
      [("PATH", "/bin")]).2 = [("PATH", "/bin")] :=
  (get_network_parameter_frame defaultNetworks [("PATH", "/bin")] "localhost"
    (by decide) (by decide)).1

end Nile
